import Mathlib

/-!
Verification of the langStats repository (src/fetchStats.py) against its
natural-language specification.  The Python program is shallowly embedded:
pure control flow becomes Lean functions, the environment, the settings
file and the filesystem become an explicit `World` record, and the HTTP
layer becomes a function from request parameters to an abstract result
that either carries a status code and parsed JSON body or raises a
transport-level exception.
-/

/-- Drop leading whitespace characters from a character list. -/
def dropLeadingWs : List Char → List Char
  | [] => []
  | c :: cs => if c.isWhitespace then dropLeadingWs cs else c :: cs

/-- Python str.strip(): remove leading and trailing whitespace.  (Modelled
directly so that it reduces definitionally, unlike String.trim.) -/
def pyStrip (s : String) : String :=
  ⟨(dropLeadingWs ((dropLeadingWs s.data).reverse)).reverse⟩

/-- The parsed contents of the optional settings file config.json
(json.load result restricted to the two recognized keys; dict.get
returns `none` when a key is absent). -/
structure Config where
  githubTokenPath : Option String
  defaultUsername : Option String

/-- The ambient state read by `getGithubToken`:
* `envToken`    — os.getenv on the token variable (`none` = unset);
* `configExists` — os.path.exists on the settings file;
* `configJson`  — result of opening and json.load-ing the settings file
  (`none` = JSONDecodeError or any other exception while reading);
* `fileExists`  — os.path.exists on arbitrary paths;
* `fileRead`    — reading a file (`none` = an exception while reading). -/
structure World where
  envToken : Option String
  configExists : Bool
  configJson : Option Config
  fileExists : String → Bool
  fileRead : String → Option String

/-- The settings-file branch of `getGithubToken` (src/fetchStats.py lines
23-44): if config.json exists and parses, and its githubTokenPath is a
truthy string naming an existing file, read that file and strip it; return
the stripped contents when non-empty.  Every failure along the way is
logged and falls through to `none`. -/
def tokenFromConfig (w : World) : Option String :=
  if w.configExists then
    match w.configJson with
    | some cfg =>
      match cfg.githubTokenPath with
      | some p =>
        if p ≠ "" ∧ w.fileExists p = true then
          match w.fileRead p with
          | some contents =>
            if pyStrip contents ≠ "" then some (pyStrip contents) else none
          | none => none
        else none
      | none => none
    | none => none
  else none

/-- `getGithubToken` (src/fetchStats.py lines 6-52): prefer a truthy
environment variable, then the settings-file token, else raise
ValueError (modelled as `Except.error`). -/
def getGithubToken (w : World) : Except String String :=
  match w.envToken with
  | some t =>
    if t = "" then
      match tokenFromConfig w with
      | some t2 => Except.ok t2
      | none => Except.error "GitHub Personal Access Token not found."
    else Except.ok t
  | none =>
    match tokenFromConfig w with
    | some t2 => Except.ok t2
    | none => Except.error "GitHub Personal Access Token not found."

/-- C2: an environment token that is set and non-empty is always returned,
whatever the settings file, the filesystem and the token file hold: the
Credential Resolver returns exactly the environment value. -/
theorem env_token_preferred (w : World) (t : String)
    (hset : w.envToken = some t) (hne : t ≠ "") :
    getGithubToken w = Except.ok t := by
  unfold getGithubToken
  rw [hset]
  simp [hne]

/-- Witness for C2 at a concrete world: environment token "secret",
settings file present and pointing at a different token. -/
theorem env_token_preferred_app :
    getGithubToken
      { envToken := some "secret"
        configExists := true
        configJson := some { githubTokenPath := some "/tok", defaultUsername := none }
        fileExists := fun _ => true
        fileRead := fun _ => some "other\n" } = Except.ok "secret" :=
  env_token_preferred _ "secret" rfl (by decide)

/-- C3: with the environment variable unset, a settings file whose
githubTokenPath names an existing readable file containing "abc123\n"
makes the Credential Resolver return the stripped token "abc123",
whatever else (such as a default username) the settings file holds. -/
theorem config_token_trimmed (w : World) (p : String) (du : Option String)
    (henv : w.envToken = none)
    (hcfgx : w.configExists = true)
    (hcfg : w.configJson = some { githubTokenPath := some p, defaultUsername := du })
    (hp : p ≠ "")
    (hex : w.fileExists p = true)
    (hrd : w.fileRead p = some "abc123\n") :
    getGithubToken w = Except.ok "abc123" := by
  unfold getGithubToken tokenFromConfig
  rw [henv, hcfgx, hcfg]
  simp only [if_true]
  rw [if_pos ⟨hp, hex⟩, hrd]
  rfl

/-- Witness for C3 at a concrete world whose settings file also sets a
default username. -/
theorem config_token_trimmed_app :
    getGithubToken
      { envToken := none
        configExists := true
        configJson := some { githubTokenPath := some "/home/me/token", defaultUsername := some "roy" }
        fileExists := fun p => p = "/home/me/token"
        fileRead := fun p => if p = "/home/me/token" then some "abc123\n" else none } =
      Except.ok "abc123" :=
  config_token_trimmed _ "/home/me/token" (some "roy") rfl rfl rfl
    (by decide) (by decide) (by decide)

/-- Every token produced by the settings-file branch is non-empty. -/
theorem tokenFromConfig_ne_empty (w : World) (t : String)
    (h : tokenFromConfig w = some t) : t ≠ "" := by
  unfold tokenFromConfig at h
  split at h
  · split at h
    · split at h
      · split at h
        · split at h
          · split at h
            · cases h
              assumption
            · exact absurd h (by simp)
          · exact absurd h (by simp)
        · exact absurd h (by simp)
      · exact absurd h (by simp)
    · exact absurd h (by simp)
  · exact absurd h (by simp)

/-- C10: every token the Credential Resolver returns is non-empty: the
environment path returns only truthy values, the settings path returns the
stripped file contents only when non-empty, and otherwise the resolver
fails, so no caller ever receives an empty token. -/
theorem token_nonempty (w : World) (t : String)
    (h : getGithubToken w = Except.ok t) : t ≠ "" := by
  unfold getGithubToken at h
  split at h
  · rename_i te henv
    split at h
    · split at h
      · rename_i t2 hcfg
        cases h
        exact tokenFromConfig_ne_empty w _ hcfg
      · exact absurd h (by simp)
    · cases h
      assumption
  · split at h
    · rename_i t2 hcfg
      cases h
      exact tokenFromConfig_ne_empty w _ hcfg
    · exact absurd h (by simp)

/-- Witness for C10 at a concrete world with an environment token. -/
theorem token_nonempty_app : "tok" ≠ "" :=
  token_nonempty
    { envToken := some "tok"
      configExists := false
      configJson := none
      fileExists := fun _ => false
      fileRead := fun _ => none } "tok" rfl

/-- One repository record as used by main: the fields repo.name and
repo.owner.login (src/fetchStats.py lines 179-180). -/
structure Repo where
  name : String
  ownerLogin : String
deriving DecidableEq

/-- The outcome of one requests.get call in the lister: either the HTTP
library raises a transport-level exception (connection failure, timeout),
or a response arrives carrying a status code, its text body and — when it
is a JSON array of repositories — the parsed records. -/
inductive PageResult where
  | raise : String → PageResult
  | resp : Nat → String → List Repo → PageResult

/-- The while-True pagination loop of `getUserPublicRepos`
(src/fetchStats.py lines 75-87), with the API abstracted as a function of
(page, perPage) and a trace recording every request issued.  A 200
response with an empty body ends the loop; a 200 response with records
appends them and moves to the next page; a non-success status logs and
breaks, returning what was accumulated; an exception from requests.get
propagates (`Except.error`).  `fuel` bounds the unrolling of the source's
unbounded loop and is always chosen large enough in the theorems. -/
def reposLoop (api : Nat → Nat → PageResult) :
    Nat → Nat → List Repo → List (Nat × Nat) → Except String (List Repo × List (Nat × Nat))
  | 0, _, acc, tr => Except.ok (acc, tr)
  | fuel + 1, page, acc, tr =>
    match api page 100 with
    | PageResult.raise e => Except.error e
    | PageResult.resp status _ body =>
      if status = 200 then
        if body.isEmpty then Except.ok (acc, tr ++ [(page, 100)])
        else reposLoop api fuel (page + 1) (acc ++ body) (tr ++ [(page, 100)])
      else Except.ok (acc, tr ++ [(page, 100)])

/-- `getUserPublicRepos` (src/fetchStats.py lines 54-89): run the
pagination loop from page 1 with per_page = 100 and no repositories
accumulated, returning the accumulated records and the request trace. -/
def getUserPublicRepos (api : Nat → Nat → PageResult) (fuel : Nat) :
    Except String (List Repo × List (Nat × Nat)) :=
  reposLoop api fuel 1 [] []

/-- C4: when pages 1 and 2 each answer 100 records and page 3 answers an
empty page, the lister returns exactly the 200 records of pages 1 and 2 in
API response order, and the request trace is precisely pages 1, 2, 3 at
page size 100 — page 4 is never requested. -/
theorem pagination_stops_on_empty (api : Nat → Nat → PageResult) (k : Nat)
    (t1 t2 t3 : String) (p1 p2 : List Repo)
    (h1 : api 1 100 = PageResult.resp 200 t1 p1)
    (h2 : api 2 100 = PageResult.resp 200 t2 p2)
    (h3 : api 3 100 = PageResult.resp 200 t3 [])
    (hl1 : p1.length = 100) (hl2 : p2.length = 100) :
    getUserPublicRepos api (k + 3) =
      Except.ok (p1 ++ p2, [(1, 100), (2, 100), (3, 100)]) := by
  have hne1 : p1.isEmpty = false := by
    cases p1 with
    | nil => simp at hl1
    | cons a l => rfl
  have hne2 : p2.isEmpty = false := by
    cases p2 with
    | nil => simp at hl2
    | cons a l => rfl
  unfold getUserPublicRepos
  show reposLoop api (k + 2 + 1) 1 [] [] = _
  unfold reposLoop
  rw [h1]
  simp only [if_pos rfl, hne1, Bool.false_eq_true, if_false]
  show reposLoop api (k + 1 + 1) 2 ([] ++ p1) ([] ++ [(1, 100)]) = _
  unfold reposLoop
  rw [h2]
  simp only [if_pos rfl, hne2, Bool.false_eq_true, if_false]
  show reposLoop api (k + 1) 3 ([] ++ p1 ++ p2) ([] ++ [(1, 100)] ++ [(2, 100)]) = _
  cases k with
  | zero =>
    unfold reposLoop
    rw [h3]
    simp
  | succ k =>
    unfold reposLoop
    rw [h3]
    simp

/-- Witness for C4: a concrete API answering 100 records on pages 1 and 2
and an empty page 3. -/
theorem pagination_stops_on_empty_app :
    getUserPublicRepos
      (fun p _ =>
        if p ≤ 2 then PageResult.resp 200 "" (List.replicate 100 { name := "r", ownerLogin := "o" })
        else PageResult.resp 200 "" []) 3 =
      Except.ok
        (List.replicate 100 { name := "r", ownerLogin := "o" } ++
            List.replicate 100 { name := "r", ownerLogin := "o" },
          [(1, 100), (2, 100), (3, 100)]) :=
  pagination_stops_on_empty _ 0 "" "" ""
    (List.replicate 100 { name := "r", ownerLogin := "o" })
    (List.replicate 100 { name := "r", ownerLogin := "o" })
    rfl rfl rfl (by simp) (by simp)

/-- Counterexample to C5 as stated: when requests.get raises a
transport-level exception (a network error) on the very first page, the
lister does not return the accumulated (empty) repository list — the
failure propagates out of the component as an error, so not every network
error is absorbed at the component boundary. -/
theorem network_error_propagates_cex :
    getUserPublicRepos (fun _ _ => PageResult.raise "ConnectionError") 10 =
        Except.error "ConnectionError" ∧
      (getUserPublicRepos (fun _ _ => PageResult.raise "ConnectionError") 10).isOk = false :=
  ⟨rfl, rfl⟩

/-- C5 amended: a non-success HTTP status truncates the result — the loop
stops and returns the repositories accumulated so far without raising —
while an exception raised by the HTTP library itself propagates out of the
loop as an error. -/
theorem listing_error_truncates :
    (∀ (api : Nat → Nat → PageResult) (fuel page : Nat) (acc : List Repo)
        (tr : List (Nat × Nat)) (status : Nat) (txt : String) (body : List Repo),
      api page 100 = PageResult.resp status txt body → status ≠ 200 →
        reposLoop api (fuel + 1) page acc tr = Except.ok (acc, tr ++ [(page, 100)])) ∧
    (∀ (api : Nat → Nat → PageResult) (fuel page : Nat) (acc : List Repo)
        (tr : List (Nat × Nat)) (e : String),
      api page 100 = PageResult.raise e →
        reposLoop api (fuel + 1) page acc tr = Except.error e) := by
  constructor
  · intro api fuel page acc tr status txt body hresp hstatus
    unfold reposLoop
    rw [hresp]
    simp [hstatus]
  · intro api fuel page acc tr e hraise
    unfold reposLoop
    rw [hraise]

/-- Witness for amended C5: a 403 on page 2 returns the page-1 records. -/
theorem listing_error_truncates_app :
    reposLoop (fun p _ =>
        if p = 1 then PageResult.resp 200 "" [{ name := "r", ownerLogin := "o" }]
        else PageResult.resp 403 "rate limited" []) 5 2
        [{ name := "r", ownerLogin := "o" }] [(1, 100)] =
      Except.ok ([{ name := "r", ownerLogin := "o" }], [(1, 100), (2, 100)]) :=
  listing_error_truncates.1 _ 4 2 [{ name := "r", ownerLogin := "o" }] [(1, 100)]
    403 "rate limited" [] rfl (by decide)

/-- One defaultdict(int) update `total[lang] += v` (src/fetchStats.py line
187): if the key is present, add to its value in place; otherwise a new
entry is created (with default count 0) and the value added, appearing at
the end in insertion order. -/
def updateAdd : List (String × Nat) → String → Nat → List (String × Nat)
  | [], k, v => [(k, v)]
  | kv :: rest, k, v =>
    if kv.1 = k then (kv.1, kv.2 + v) :: rest else kv :: updateAdd rest k v

/-- Dictionary lookup with default 0: the value the breakdown maps a
language to (the first matching entry, 0 when absent). -/
def lookupVal : List (String × Nat) → String → Nat
  | [], _ => 0
  | kv :: rest, k => if kv.1 = k then kv.2 else lookupVal rest k

/-- The sum of the byte counts a single LanguageByteMap records for one
language (equals its unique value when keys are unique). -/
def keySum : List (String × Nat) → String → Nat
  | [], _ => 0
  | kv :: rest, k => (if kv.1 = k then kv.2 else 0) + keySum rest k

/-- The inner for-loop of main (src/fetchStats.py lines 186-187): fold one
repository's language map into the running breakdown. -/
def addAll (acc m : List (String × Nat)) : List (String × Nat) :=
  m.foldl (fun a kv => updateAdd a kv.1 kv.2) acc

/-- One iteration of the repository loop of main (src/fetchStats.py lines
184-187) acting on (breakdown, repoCount): an empty language map leaves
both unchanged; a non-empty one is folded in and the count incremented. -/
def processRepo (st : List (String × Nat) × Nat) (m : List (String × Nat)) :
    List (String × Nat) × Nat :=
  if m.isEmpty then st else (addAll st.1 m, st.2 + 1)

/-- The whole aggregation phase of main (src/fetchStats.py lines 174-187)
over the per-repository language maps, starting from an empty
defaultdict(int) and repoCount = 0. -/
def aggregateAll (maps : List (List (String × Nat))) : List (String × Nat) × Nat :=
  maps.foldl processRepo ([], 0)

/-- The specified value of the aggregate at one language: the sum of that
language's byte counts over all non-empty maps of the sequence. -/
def totalFor : List (List (String × Nat)) → String → Nat
  | [], _ => 0
  | m :: rest, k => (if m.isEmpty then 0 else keySum m k) + totalFor rest k

/-- The keys of a breakdown, in insertion order. -/
def keysOf : List (String × Nat) → List String
  | [] => []
  | kv :: rest => kv.1 :: keysOf rest

theorem lookupVal_updateAdd (m : List (String × Nat)) (k : String) (v : Nat) (q : String) :
    lookupVal (updateAdd m k v) q = lookupVal m q + (if q = k then v else 0) := by
  induction m with
  | nil =>
    simp only [updateAdd, lookupVal]
    by_cases h : k = q
    · rw [if_pos h, if_pos h.symm, Nat.zero_add]
    · rw [if_neg h, if_neg (fun hh : q = k => h hh.symm), Nat.add_zero]
  | cons kv rest ih =>
    simp only [updateAdd]
    by_cases hk : kv.1 = k
    · rw [if_pos hk]
      simp only [lookupVal]
      by_cases hq : kv.1 = q
      · have hqk : q = k := by rw [← hq, hk]
        rw [if_pos hq, if_pos hq, if_pos hqk]
      · have hqk : ¬q = k := fun hh => hq (by rw [hk, ← hh])
        rw [if_neg hq, if_neg hq, if_neg hqk, Nat.add_zero]
    · rw [if_neg hk]
      simp only [lookupVal]
      by_cases hq : kv.1 = q
      · have hqk : ¬q = k := fun hh => hk (by rw [hq, hh])
        rw [if_pos hq, if_pos hq, if_neg hqk, Nat.add_zero]
      · rw [if_neg hq, if_neg hq, ih]

theorem lookupVal_addAll (m acc : List (String × Nat)) (q : String) :
    lookupVal (addAll acc m) q = lookupVal acc q + keySum m q := by
  induction m generalizing acc with
  | nil => simp [addAll, keySum]
  | cons kv rest ih =>
    show lookupVal (addAll (updateAdd acc kv.1 kv.2) rest) q = _
    rw [ih, lookupVal_updateAdd]
    simp only [keySum]
    by_cases h : kv.1 = q
    · rw [if_pos h, if_pos h.symm]
      omega
    · rw [if_neg h, if_neg (fun hh : q = kv.1 => h hh.symm)]
      omega

theorem lookupVal_foldl_processRepo (maps : List (List (String × Nat)))
    (st : List (String × Nat) × Nat) (q : String) :
    lookupVal (maps.foldl processRepo st).1 q = lookupVal st.1 q + totalFor maps q := by
  induction maps generalizing st with
  | nil => simp [totalFor]
  | cons m rest ih =>
    show lookupVal (rest.foldl processRepo (processRepo st m)).1 q = _
    rw [ih]
    simp only [totalFor]
    by_cases hm : m.isEmpty
    · simp [processRepo, hm]
    · simp only [processRepo, hm, Bool.false_eq_true, if_false]
      rw [lookupVal_addAll]
      omega

theorem mem_keysOf_updateAdd (m : List (String × Nat)) (k : String) (v : Nat) (a : String)
    (h : a ∈ keysOf (updateAdd m k v)) : a ∈ keysOf m ∨ a = k := by
  induction m with
  | nil =>
    simp only [updateAdd, keysOf, List.mem_singleton] at h
    exact Or.inr h
  | cons kv rest ih =>
    by_cases hk : kv.1 = k
    · rw [updateAdd, if_pos hk] at h
      exact Or.inl h
    · rw [updateAdd, if_neg hk] at h
      rw [keysOf, List.mem_cons] at h
      cases h with
      | inl h => exact Or.inl (by rw [keysOf, List.mem_cons]; exact Or.inl h)
      | inr h =>
        cases ih h with
        | inl h2 => exact Or.inl (by rw [keysOf, List.mem_cons]; exact Or.inr h2)
        | inr h2 => exact Or.inr h2

theorem nodup_updateAdd (m : List (String × Nat)) (k : String) (v : Nat)
    (h : (keysOf m).Nodup) : (keysOf (updateAdd m k v)).Nodup := by
  induction m with
  | nil => simp [updateAdd, keysOf]
  | cons kv rest ih =>
    rw [keysOf, List.nodup_cons] at h
    by_cases hk : kv.1 = k
    · rw [updateAdd, if_pos hk, keysOf, List.nodup_cons]
      exact h
    · rw [updateAdd, if_neg hk, keysOf, List.nodup_cons]
      refine ⟨?_, ih h.2⟩
      intro hmem
      cases mem_keysOf_updateAdd rest k v kv.1 hmem with
      | inl h2 => exact h.1 h2
      | inr h2 => exact hk h2

theorem nodup_addAll (m acc : List (String × Nat))
    (h : (keysOf acc).Nodup) : (keysOf (addAll acc m)).Nodup := by
  induction m generalizing acc with
  | nil => exact h
  | cons kv rest ih =>
    show (keysOf (addAll (updateAdd acc kv.1 kv.2) rest)).Nodup
    exact ih _ (nodup_updateAdd acc kv.1 kv.2 h)

theorem nodup_foldl_processRepo (maps : List (List (String × Nat)))
    (st : List (String × Nat) × Nat) (h : (keysOf st.1).Nodup) :
    (keysOf (maps.foldl processRepo st).1).Nodup := by
  induction maps generalizing st with
  | nil => exact h
  | cons m rest ih =>
    show (keysOf (rest.foldl processRepo (processRepo st m)).1).Nodup
    refine ih _ ?_
    by_cases hm : m.isEmpty
    · simpa [processRepo, hm] using h
    · simp only [processRepo, hm, Bool.false_eq_true, if_false]
      exact nodup_addAll m st.1 h

/-- C1: the aggregate breakdown maps each language to the sum of its byte
counts over all non-empty maps of the sequence — entries are created on
first sight and accumulated by addition — and its keys are unique. -/
theorem aggregate_breakdown_sums (maps : List (List (String × Nat))) :
    (keysOf (aggregateAll maps).1).Nodup ∧
      ∀ k, lookupVal (aggregateAll maps).1 k = totalFor maps k := by
  constructor
  · exact nodup_foldl_processRepo maps ([], 0) (by simp [keysOf])
  · intro k
    unfold aggregateAll
    rw [lookupVal_foldl_processRepo]
    simp [lookupVal]

/-- The outcome of the single requests.get call in `getRepoLanguages`:
either a transport-level exception, or a response with status code, text
body, and — when it is a JSON object of language byte counts — the parsed
mapping. -/
inductive LangResult where
  | raise : String → LangResult
  | resp : Nat → String → List (String × Nat) → LangResult

/-- `getRepoLanguages` (src/fetchStats.py lines 91-116): a 200 response
yields the parsed language map; any other status logs a warning and
yields an empty mapping; an exception from requests.get propagates. -/
def getRepoLanguages : LangResult → Except String (List (String × Nat))
  | LangResult.raise e => Except.error e
  | LangResult.resp status _ body =>
    if status = 200 then Except.ok body else Except.ok []

/-- C6: a repository whose language fetch answers a non-success HTTP
status yields an empty mapping, and an empty mapping leaves both the
aggregate breakdown and the contributing-repository count unchanged in
the main loop. -/
theorem lang_fetch_failure_empty (status : Nat) (txt : String)
    (body : List (String × Nat)) (h : status ≠ 200) :
    getRepoLanguages (LangResult.resp status txt body) = Except.ok [] ∧
      ∀ st : List (String × Nat) × Nat, processRepo st [] = st := by
  refine ⟨?_, fun st => rfl⟩
  simp [getRepoLanguages, h]

/-- Witness for C6: a 404 on one repository contributes nothing. -/
theorem lang_fetch_failure_empty_app :
    getRepoLanguages (LangResult.resp 404 "Not Found" [("Python", 7)]) = Except.ok [] ∧
      processRepo ([("C", 3)], 1) [] = ([("C", 3)], 1) := by
  have h := lang_fetch_failure_empty 404 "Not Found" [("Python", 7)] (by decide)
  exact ⟨h.1, h.2 ([("C", 3)], 1)⟩

/-- The comparison used by `sorted(key=lambda item: item[1], reverse=True)`
(src/fetchStats.py line 203): `a` may come before `b` exactly when the
byte count of `b` does not exceed that of `a`. -/
def pyDescRel (a b : String × Nat) : Prop := b.2 ≤ a.2

instance : DecidableRel pyDescRel := fun a b => Nat.decLe b.2 a.2

instance : IsTotal (String × Nat) pyDescRel :=
  ⟨fun a b => Nat.le_total b.2 a.2⟩

instance : IsTrans (String × Nat) pyDescRel :=
  ⟨fun _ _ _ hab hbc => Nat.le_trans hbc hab⟩

/-- The sort of main (src/fetchStats.py line 203): Python's sorted is a
stable sort, and with key item[1] and reverse=True it is the stable
descending sort by byte count, i.e. insertion sort under `pyDescRel`. -/
def sortDesc (l : List (String × Nat)) : List (String × Nat) :=
  List.insertionSort pyDescRel l

/-- C7: the report order is descending by byte count — the sorted list is
a permutation of the breakdown, pairwise ordered by `pyDescRel` — and on
the tied input {A:50, B:200, C:200} the two tied languages both precede
the smaller one, in the first-seen order, the same on every run with that
input order (the sort is a function of the input alone). -/
theorem sort_descending_deterministic :
    (∀ l : List (String × Nat),
        (sortDesc l).Sorted pyDescRel ∧ (sortDesc l).Perm l) ∧
      sortDesc [("A", 50), ("B", 200), ("C", 200)] =
        [("B", 200), ("C", 200), ("A", 50)] := by
  constructor
  · intro l
    exact ⟨List.sorted_insertionSort pyDescRel l, List.perm_insertionSort pyDescRel l⟩
  · decide

/-- Round num/den to the nearest integer, halves to even — the rounding
used by Python float formatting.  For the values this program formats, a
byte count divided by 1024, 1024^2 or 1024^3 has a power-of-two
denominator and is represented exactly by the float, so formatting to two
decimals is exactly round-half-even of the rational scaled by 100. -/
def roundHalfEven (num den : Nat) : Nat :=
  if 2 * (num % den) < den then num / den
  else if den < 2 * (num % den) then num / den + 1
  else if num / den % 2 = 0 then num / den else num / den + 1

/-- Render a number of hundredths as a fixed two-decimal string, the shape
produced by Python {value:.2f} formatting. -/
def twoDec (h : Nat) : String :=
  toString (h / 100) ++ "." ++
    (if h % 100 < 10 then "0" ++ toString (h % 100) else toString (h % 100))

/-- The size string of main (src/fetchStats.py lines 207-215): bytes below
1024 print raw with unit B; below 1024^2 the count is divided by 1024 and
printed to two decimals with unit KB; below 1024^3, by 1024^2 with unit
MB; otherwise by 1024^3 with unit GB. -/
def sizeStr (n : Nat) : String :=
  if n < 1024 then toString n ++ " B"
  else if n < 1024 ^ 2 then twoDec (roundHalfEven (n * 100) 1024) ++ " KB"
  else if n < 1024 ^ 3 then twoDec (roundHalfEven (n * 100) (1024 ^ 2)) ++ " MB"
  else twoDec (roundHalfEven (n * 100) (1024 ^ 3)) ++ " GB"

/-- C8: binary unit thresholds — every count below 1024 prints raw in
bytes, counts below 1024^2 print in KB, below 1024^3 in MB, otherwise in
GB, scaled to two decimals; in particular 1023 formats as "1023 B", 1024
as "1.00 KB", 1048576 as "1.00 MB" and 1073741824 as "1.00 GB". -/
theorem size_format_boundaries :
    (∀ n : Nat, n < 1024 → sizeStr n = toString n ++ " B") ∧
    (∀ n : Nat, 1024 ≤ n → n < 1024 ^ 2 → ∃ s, sizeStr n = s ++ " KB") ∧
    (∀ n : Nat, 1024 ^ 2 ≤ n → n < 1024 ^ 3 → ∃ s, sizeStr n = s ++ " MB") ∧
    (∀ n : Nat, 1024 ^ 3 ≤ n → ∃ s, sizeStr n = s ++ " GB") ∧
    sizeStr 1023 = "1023 B" ∧ sizeStr 1024 = "1.00 KB" ∧
    sizeStr 1048576 = "1.00 MB" ∧ sizeStr 1073741824 = "1.00 GB" := by
  refine ⟨?_, ?_, ?_, ?_, ?_, ?_, ?_, ?_⟩
  · intro n h
    unfold sizeStr
    rw [if_pos h]
  · intro n h1 h2
    unfold sizeStr
    rw [if_neg (Nat.not_lt.mpr h1), if_pos h2]
    exact ⟨_, rfl⟩
  · intro n h1 h2
    unfold sizeStr
    rw [if_neg (Nat.not_lt.mpr (le_trans (by norm_num) h1)),
      if_neg (Nat.not_lt.mpr h1), if_pos h2]
    exact ⟨_, rfl⟩
  · intro n h1
    unfold sizeStr
    rw [if_neg (Nat.not_lt.mpr (le_trans (by norm_num) h1)),
      if_neg (Nat.not_lt.mpr (le_trans (by norm_num) h1)),
      if_neg (Nat.not_lt.mpr h1)]
    exact ⟨_, rfl⟩
  · decide
  · decide
  · decide
  · decide

/-- Witness for C8: the bytes branch applied at 500. -/
theorem size_format_boundaries_app : sizeStr 500 = toString 500 ++ " B" :=
  size_format_boundaries.1 500 (by decide)

/-- The apostrophe character, used around the username in the header. -/
def quoteChar : String := String.singleton (Char.ofNat 39)

/-- The percentage of one language to two decimals, scaled to hundredths:
(bytesCount / totalBytes) * 100 under Python {value:.2f}, modelled as
round-half-even of the exact rational. -/
def percHundredths (bytesCount totalBytes : Nat) : Nat :=
  roundHalfEven (bytesCount * 100 * 100) totalBytes

/-- One per-language report line (src/fetchStats.py line 216):
the language, its percentage to two decimals, and its size string. -/
def langLine (totalBytes : Nat) (kv : String × Nat) : String :=
  kv.1 ++ ": " ++ twoDec (percHundredths kv.2 totalBytes) ++ "% (" ++ sizeStr kv.2 ++ ")"

/-- totalBytes (src/fetchStats.py line 196): the sum of all values of the
aggregate breakdown. -/
def sumValues (m : List (String × Nat)) : Nat :=
  m.foldl (fun s kv => s + kv.2) 0

/-- The summary header printed by main (src/fetchStats.py line 193),
showing the contributing-repository count and the username. -/
def headerLine (repoCount : Nat) (userName : String) : String :=
  "\n--- Language Breakdown for all " ++ toString repoCount ++
    " Public Repositories of " ++ quoteChar ++ userName ++ quoteChar ++ " ---"

/-- The trailing separator printed by main (src/fetchStats.py line 218). -/
def separatorLine : String :=
  "\n-----------------------------------------------------------"

/-- The reporting phase of main (src/fetchStats.py lines 189-218) as the
list of printed lines, given the per-repository language maps: aggregate,
bail out on an empty breakdown, print the header, bail out on zero total
bytes, then print one line per language in sorted order and the trailing
separator. -/
def reportLines (maps : List (List (String × Nat))) (userName : String) : List String :=
  if (aggregateAll maps).1.isEmpty then
    ["No language data found for any of the public repositories."]
  else if sumValues (aggregateAll maps).1 = 0 then
    [headerLine (aggregateAll maps).2 userName,
      "No code bytes found across all repositories."]
  else
    headerLine (aggregateAll maps).2 userName ::
      ((sortDesc (aggregateAll maps).1).map
          (langLine (sumValues (aggregateAll maps).1)) ++
        [separatorLine])

/-- Counterexample to C9 as stated: on a single repository that is all
Python, the first printed line is the summary header, not a per-language
line — the header precedes the language lines instead of following them,
so the claimed order (language lines, then header, then separator) is
wrong. -/
theorem report_header_order_cex :
    reportLines [[("Python", 512)]] "u" =
        [headerLine 1 "u", "Python: 100.00% (512 B)", separatorLine] ∧
      reportLines [[("Python", 512)]] "u" ≠
        ["Python: 100.00% (512 B)", headerLine 1 "u", separatorLine] := by
  constructor
  · decide
  · decide

/-- C9 amended: whenever the aggregate breakdown is non-empty and the
total byte count is positive, the report consists of the summary header
(contributing-repository count and username) first, then one line per
language in sorted order, then the trailing separator line. -/
theorem report_structure (maps : List (List (String × Nat))) (u : String)
    (hne : (aggregateAll maps).1.isEmpty = false)
    (htot : sumValues (aggregateAll maps).1 ≠ 0) :
    reportLines maps u =
      headerLine (aggregateAll maps).2 u ::
        ((sortDesc (aggregateAll maps).1).map
            (langLine (sumValues (aggregateAll maps).1)) ++
          [separatorLine]) := by
  unfold reportLines
  rw [hne]
  simp only [Bool.false_eq_true, if_false]
  rw [if_neg htot]

/-- Witness for amended C9 on a concrete two-language run. -/
theorem report_structure_app :
    reportLines [[("Python", 300), ("C", 700)]] "roy" =
      headerLine (aggregateAll [[("Python", 300), ("C", 700)]]).2 "roy" ::
        ((sortDesc (aggregateAll [[("Python", 300), ("C", 700)]]).1).map
            (langLine (sumValues (aggregateAll [[("Python", 300), ("C", 700)]]).1)) ++
          [separatorLine]) :=
  report_structure [[("Python", 300), ("C", 700)]] "roy" (by decide) (by decide)
